import Mathlib

/-!
Shallow embedding of the MediReminder medication-reminder and health-log
application (single Python/Streamlit source file backed by a SQLite store
with two tables, `medications` and `health_log`).

Strings are modelled by Lean `String`; all string manipulation from the
source (Python `str.split`, `str.strip`, `";".join`, lexicographic `<`,
and SQLite text comparison in `BETWEEN`) is re-implemented on the
underlying character lists so that every definition evaluates by kernel
reduction.  SQLite result order for plain `SELECT` is modelled as row
(insertion) order; `fetchone` is `List.find?`.
-/

/-- Lexicographic order on character lists, by code point.  This is the
byte order SQLite's `BETWEEN` uses on TEXT columns and the order Python
uses to compare strings such as `t < current_time` (all relevant strings
are ASCII, where code-point order and byte order agree). -/
def lexLt : List Char → List Char → Bool
  | [], [] => false
  | [], _ :: _ => true
  | _ :: _, [] => false
  | a :: as, b :: bs =>
    if a.toNat < b.toNat then true
    else if b.toNat < a.toNat then false
    else lexLt as bs

/-- Strict string comparison (Python `<` on strings / SQLite TEXT order). -/
def strLtb (a b : String) : Bool := lexLt a.data b.data

/-- Non-strict string comparison (SQLite `x <= y` on TEXT, as used by
`BETWEEN`). -/
def strLeb (a b : String) : Bool := strLtb a b || a == b

/-- Auxiliary splitter: Python `str.split(sep)` with a one-character
separator, accumulating the current piece in reverse. -/
def splitOnCharAux (sep : Char) : List Char → List Char → List (List Char)
  | [], acc => [acc.reverse]
  | c :: cs, acc =>
    if c = sep then acc.reverse :: splitOnCharAux sep cs []
    else splitOnCharAux sep cs (c :: acc)

/-- Python `s.split(sep)` for a single-character separator: e.g.
`"a;b".split(";") = ["a","b"]`, `"".split(";") = [""]`. -/
def splitStr (sep : Char) (s : String) : List String :=
  (splitOnCharAux sep s.data []).map String.mk

/-- Characters stripped by Python `str.strip()`. -/
def isPySpace (c : Char) : Bool :=
  c = ' ' || c = '\t' || c = '\n' || c = '\r' || c = '\x0b' || c = '\x0c'

/-- Python `str.strip()`: remove leading and trailing whitespace. -/
def pyStrip (s : String) : String :=
  ⟨((s.data.dropWhile isPySpace).reverse.dropWhile isPySpace).reverse⟩

/-- Python `sep.join(pieces)` at the character level. -/
def joinChar (sep : Char) : List (List Char) → List Char
  | [] => []
  | [x] => x
  | x :: y :: ys => x ++ sep :: joinChar sep (y :: ys)

/-- Python `sep.join(pieces)` for a one-character separator, e.g.
`";".join(taken_list)`. -/
def joinStr (sep : Char) (l : List String) : String :=
  ⟨joinChar sep (l.map String.data)⟩

/-- A row of the `medications` table.  `start_date` is always written by
the add-medication form (`str(start_date)`), so it is total; `end_date`
is `NULL`-able (`None` when the optional end date is left empty). -/
structure Medication where
  id : Nat
  name : String
  dosage : String
  frequency : String
  start_date : String
  end_date : Option String
  times_per_day : Nat
  reminder_times : String
  deriving DecidableEq

/-- A row of the `health_log` table.  All payload columns are `NULL`-able:
the symptom form writes `date, symptom, severity, notes` and the
mark-as-taken handler writes `date, taken_medications`. -/
structure HealthLogRow where
  id : Nat
  date : String
  symptom : Option String
  severity : Option Int
  notes : Option String
  taken_medications : Option String
  deriving DecidableEq

/-- The persistent store: both tables, rows in insertion (rowid) order. -/
structure Store where
  medications : List Medication
  health_log : List HealthLogRow
  deriving DecidableEq

/-- `parse_times` (source lines 52-55): split a comma-joined reminder-time
string and strip each piece; the empty (falsy) string gives `[]`. -/
def parse_times (time_str : String) : List String :=
  if time_str = "" then []
  else (splitStr ',' time_str).map pyStrip

/-- The dashboard query
`SELECT * FROM medications WHERE ? BETWEEN start_date AND COALESCE(end_date, ?)`
with both parameters bound to the query date (source line 63). -/
def listMedicationsActiveOn (store : Store) (d : String) : List Medication :=
  store.medications.filter fun m =>
    strLeb m.start_date d && strLeb d (m.end_date.getD d)

/-- `SELECT ... FROM health_log WHERE date = ?` followed by `fetchone`:
the first row (in rowid order) with the given date. -/
def findLogRowByDate (store : Store) (d : String) : Option HealthLogRow :=
  store.health_log.find? fun r => r.date == d

/-- `log[0].split(";") if log and log[0] else []` (source lines 87 and
103): the day's taken-medication names parsed from the first matching
row; a missing row, `NULL`, or the empty string all give `[]`. -/
def parseTaken : Option HealthLogRow → List String
  | none => []
  | some r =>
    match r.taken_medications with
    | none => []
    | some s => if s = "" then [] else splitStr ';' s

/-- The day's taken set as the dashboard reads it (source lines 85-87). -/
def medTaken (store : Store) (today : String) : List String :=
  parseTaken (findLogRowByDate store today)

/-- The dashboard classification loop (source lines 80-93): each reminder
time strictly below the current time-of-day goes to `taken` when the
medication's name is in the day's taken set and to `pending` otherwise;
any other time goes to `pending`.  Returns `(pending, taken)` in input
order. -/
def classifyTimes (store : Store) (today current_time name : String) :
    List String → List String × List String
  | [] => ([], [])
  | t :: ts =>
    let rest := classifyTimes store today current_time name ts
    if strLtb t current_time then
      if name ∈ medTaken store today then (rest.1, t :: rest.2)
      else (t :: rest.1, rest.2)
    else (t :: rest.1, rest.2)

/-- A write statement issued against the store by the mark-as-taken
handler. -/
inductive DbWrite where
  | update (taken_str : String) (date : String)
  | insert (date : String) (name : String)
  deriving DecidableEq

/-- The "Mark as Taken" handler (source lines 100-113): read the first
`health_log` row for `today`, parse its taken list; if `name` is absent,
append it and either `UPDATE health_log SET taken_medications = ? WHERE
date = ?` (which touches every row with that date) or `INSERT` a fresh
row carrying only the date and the name.  `newId` models the rowid SQLite
assigns on insert.  Returns the new store and the writes issued. -/
def markMedicationTaken (store : Store) (today name : String) (newId : Nat) :
    Store × List DbWrite :=
  let row := findLogRowByDate store today
  let taken_list := parseTaken row
  if name ∈ taken_list then (store, [])
  else
    let taken_str := joinStr ';' (taken_list ++ [name])
    match row with
    | some _ =>
      ({ store with
          health_log := store.health_log.map fun r =>
            if r.date == today then { r with taken_medications := some taken_str }
            else r },
       [DbWrite.update taken_str today])
    | none =>
      ({ store with
          health_log := store.health_log ++
            [{ id := newId, date := today, symptom := none, severity := none,
               notes := none, taken_medications := some name }] },
       [DbWrite.insert today name])

/-- Input of the add-medication form. -/
structure MedForm where
  name : String
  dosage : String
  frequency : String
  times_per_day : Nat
  reminder_input : String
  start_date : String
  end_date : Option String
  deriving DecidableEq

/-- Outcome of a form submission. -/
inductive SubmitResult where
  | validationError
  | saved
  deriving DecidableEq

/-- The add-medication submit handler (source lines 133-144): if any of
name, dosage, reminder input is empty (Python-falsy), show an error and
write nothing; otherwise insert the row with the raw reminder string. -/
def addMedication (store : Store) (f : MedForm) (newId : Nat) :
    Store × SubmitResult :=
  if f.name = "" || f.dosage = "" || f.reminder_input = "" then
    (store, SubmitResult.validationError)
  else
    ({ store with
        medications := store.medications ++
          [{ id := newId, name := f.name, dosage := f.dosage,
             frequency := f.frequency, start_date := f.start_date,
             end_date := f.end_date, times_per_day := f.times_per_day,
             reminder_times := f.reminder_input }] },
     SubmitResult.saved)

/-- `SELECT date, symptom, severity, notes FROM health_log ORDER BY date
DESC LIMIT n` (source line 168).  `ORDER BY date DESC` is a sort by the
text order on `date`, descending. -/
def listRecentHealthLogEntries (store : Store) (limit : Nat) :
    List (String × Option String × Option Int × Option String) :=
  ((store.health_log.mergeSort fun a b => strLeb b.date a.date).map fun r =>
    (r.date, r.symptom, r.severity, r.notes)).take limit

/-- A rendered table cell of the PDF report: either text, an integer
(severity), or Python `None` for a `NULL` column rendered as-is. -/
inductive Cell where
  | s (v : String)
  | i (v : Int)
  | none
  deriving DecidableEq

/-- `log[4] or "-"`: notes, with `None` and `""` replaced by a dash. -/
def notesOrDash : Option String → String
  | Option.none => "-"
  | Option.some v => if v = "" then "-" else v

/-- One data row of the PDF health-log table (source line 236):
`[log[1], log[2], log[3], log[4] or "-"]` where `log` is
`(id, date, symptom, severity, notes, taken_medications)`. -/
def renderLogRow (r : HealthLogRow) : List Cell :=
  [Cell.s r.date,
   (match r.symptom with | Option.none => Cell.none | Option.some v => Cell.s v),
   (match r.severity with | Option.none => Cell.none | Option.some v => Cell.i v),
   Cell.s (notesOrDash r.notes)]

/-- The PDF report builder (source lines 205-240): the medication table is
a header row followed by `[name, dosage]` for every row of `medications`
(no date filter); the health-log table is a header row followed by one
rendered row for every `health_log` row with `date BETWEEN startDate AND
endDate` (inclusive). -/
def buildReport (store : Store) (startDate endDate : String) :
    List (List String) × List (List Cell) :=
  let logs := store.health_log.filter fun r =>
    strLeb startDate r.date && strLeb r.date endDate
  let meds := store.medications.map fun m => (m.name, m.dosage)
  (["Name", "Dosage"] :: meds.map fun m => [m.1, m.2],
   [Cell.s "Date", Cell.s "Symptom", Cell.s "Severity", Cell.s "Notes"] ::
     logs.map renderLogRow)

/-- Modelled from the spec: the source never re-serializes a parsed
reminder-time list (the raw input string itself is stored), so the
serializer is taken from the spec's words "stored as a single
comma-joined string": join the list with a comma. -/
def serializeReminderTimes (ts : List String) : String :=
  joinStr ',' ts

/-! ### Basic lemmas about the string primitives -/

theorem String.ext_data {s t : String} (h : s.data = t.data) : s = t := by
  cases s; cases t; exact congrArg String.mk h

theorem Char.toNat_injective {a b : Char} (h : a.toNat = b.toNat) : a = b := by
  rw [← Char.ofNat_toNat a, ← Char.ofNat_toNat b, h]

theorem lexLt_trans : ∀ (as bs cs : List Char),
    lexLt as bs = true → lexLt bs cs = true → lexLt as cs = true
  | as, bs, cs => by
    induction as generalizing bs cs with
    | nil =>
      cases bs with
      | nil => intro h; simp [lexLt] at h
      | cons b bs =>
        cases cs with
        | nil => intro _ h; simp [lexLt] at h
        | cons c cs => intro _ _; rfl
    | cons a as ih =>
      cases bs with
      | nil => intro h; simp [lexLt] at h
      | cons b bs =>
        cases cs with
        | nil => intro _ h; simp [lexLt] at h
        | cons c cs =>
          simp only [lexLt]
          intro h1 h2
          rcases Nat.lt_trichotomy a.toNat b.toNat with hab | hab | hab
          · rcases Nat.lt_trichotomy b.toNat c.toNat with hbc | hbc | hbc
            · rw [if_pos (by omega)]
            · rw [if_pos (by omega)]
            · rw [if_neg (by omega), if_pos (by omega)] at h2
              exact absurd h2 (by simp)
          · rcases Nat.lt_trichotomy b.toNat c.toNat with hbc | hbc | hbc
            · rw [if_pos (by omega)]
            · rw [if_neg (by omega), if_neg (by omega)] at h1
              rw [if_neg (by omega), if_neg (by omega)] at h2
              rw [if_neg (by omega), if_neg (by omega)]
              exact ih bs cs h1 h2
            · rw [if_neg (by omega), if_pos (by omega)] at h2
              exact absurd h2 (by simp)
          · rw [if_neg (by omega), if_pos (by omega)] at h1
            exact absurd h1 (by simp)

theorem lexLt_connex : ∀ (as bs : List Char),
    lexLt as bs = false → lexLt bs as = false → as = bs
  | [], [] => fun _ _ => rfl
  | [], _ :: _ => fun h _ => by simp [lexLt] at h
  | _ :: _, [] => fun _ h => by simp [lexLt] at h
  | a :: as, b :: bs => fun h1 h2 => by
    simp only [lexLt] at h1 h2
    rcases Nat.lt_trichotomy a.toNat b.toNat with h | h | h
    · rw [if_pos h] at h1; exact absurd h1 (by simp)
    · rw [if_neg (by omega), if_neg (by omega)] at h1
      rw [if_neg (by omega), if_neg (by omega)] at h2
      rw [Char.toNat_injective h, lexLt_connex as bs h1 h2]
    · rw [if_pos h] at h2; exact absurd h2 (by simp)

theorem strLeb_trans (a b c : String) (h1 : strLeb a b = true)
    (h2 : strLeb b c = true) : strLeb a c = true := by
  simp only [strLeb, strLtb, Bool.or_eq_true, beq_iff_eq] at h1 h2 ⊢
  rcases h1 with h1 | h1
  · rcases h2 with h2 | h2
    · exact Or.inl (lexLt_trans _ _ _ h1 h2)
    · exact Or.inl (h2 ▸ h1)
  · exact h1 ▸ h2

theorem strLeb_total (a b : String) : (strLeb a b || strLeb b a) = true := by
  simp only [strLeb, strLtb, Bool.or_eq_true, beq_iff_eq]
  cases hab : lexLt a.data b.data with
  | true => exact Or.inl (Or.inl rfl)
  | false =>
    cases hba : lexLt b.data a.data with
    | true => exact Or.inr (Or.inl rfl)
    | false => exact Or.inl (Or.inr (String.ext_data (lexLt_connex _ _ hab hba)))

theorem strLeb_refl (a : String) : strLeb a a = true := by
  simp [strLeb]

/-! ### Lemmas about splitting and joining -/

theorem splitOnCharAux_sepFree (sep : Char) :
    ∀ (cs acc : List Char), sep ∉ acc →
      ∀ p ∈ splitOnCharAux sep cs acc, sep ∉ p := by
  intro cs
  induction cs with
  | nil =>
    intro acc hacc p hp
    simp only [splitOnCharAux, List.mem_singleton] at hp
    subst hp; simpa using hacc
  | cons c cs ih =>
    intro acc hacc p hp
    simp only [splitOnCharAux] at hp
    by_cases hc : c = sep
    · rw [if_pos hc] at hp
      rcases List.mem_cons.1 hp with hp | hp
      · subst hp; simpa using hacc
      · exact ih [] (by simp) p hp
    · rw [if_neg hc] at hp
      refine ih (c :: acc) ?_ p hp
      intro hmem
      rcases List.mem_cons.1 hmem with h | h
      · exact hc h.symm
      · exact hacc h

theorem splitOnCharAux_of_not_mem (sep : Char) :
    ∀ (cs acc : List Char), sep ∉ cs →
      splitOnCharAux sep cs acc = [acc.reverse ++ cs] := by
  intro cs
  induction cs with
  | nil => intro acc _; simp [splitOnCharAux]
  | cons c cs ih =>
    intro acc hcs
    have hc : ¬ c = sep := fun h => hcs (h ▸ List.mem_cons_self c cs)
    have hcs' : sep ∉ cs := fun h => hcs (List.mem_cons_of_mem c h)
    simp only [splitOnCharAux, if_neg hc, ih (c :: acc) hcs', List.reverse_cons,
      List.append_assoc, List.singleton_append]

theorem splitOnCharAux_append (sep : Char) :
    ∀ (x cs acc : List Char), sep ∉ x →
      splitOnCharAux sep (x ++ cs) acc = splitOnCharAux sep cs (x.reverse ++ acc) := by
  intro x
  induction x with
  | nil => intro cs acc _; simp
  | cons c x ih =>
    intro cs acc hx
    have hc : ¬ c = sep := fun h => hx (h ▸ List.mem_cons_self c x)
    have hx' : sep ∉ x := fun h => hx (List.mem_cons_of_mem c h)
    show splitOnCharAux sep (c :: (x ++ cs)) acc = _
    simp only [splitOnCharAux, if_neg hc]
    rw [ih cs (c :: acc) hx']
    simp [List.reverse_cons, List.append_assoc]

theorem splitOnCharAux_join (sep : Char) :
    ∀ (l : List (List Char)), l ≠ [] → (∀ p ∈ l, sep ∉ p) →
      splitOnCharAux sep (joinChar sep l) [] = l
  | [], h, _ => absurd rfl h
  | [x], _, hf => by
    simp only [joinChar]
    rw [splitOnCharAux_of_not_mem sep x [] (hf x (List.mem_singleton_self x))]
    simp
  | x :: y :: ys, _, hf => by
    have hx : sep ∉ x := hf x (List.mem_cons_self _ _)
    simp only [joinChar]
    rw [splitOnCharAux_append sep x (sep :: joinChar sep (y :: ys)) [] hx]
    simp only [splitOnCharAux, if_pos rfl]
    rw [splitOnCharAux_join sep (y :: ys) (by simp)
      (fun p hp => hf p (List.mem_cons_of_mem x hp))]
    simp

theorem splitStr_joinStr (sep : Char) (l : List String) (h : l ≠ [])
    (hf : ∀ s ∈ l, sep ∉ s.data) : splitStr sep (joinStr sep l) = l := by
  simp only [splitStr, joinStr]
  rw [splitOnCharAux_join sep (l.map String.data)
    (by simpa using h)
    (by intro p hp
        rcases List.mem_map.1 hp with ⟨s, hs, rfl⟩
        exact hf s hs)]
  rw [List.map_map]
  exact List.map_id' l

theorem mem_splitStr (sep : Char) (t : String) :
    ∀ s ∈ splitStr sep t, sep ∉ s.data := by
  intro s hs
  simp only [splitStr] at hs
  rcases List.mem_map.1 hs with ⟨p, hp, rfl⟩
  exact splitOnCharAux_sepFree sep t.data [] (by simp) p hp

theorem splitStr_eq_single (sep : Char) (s : String) (h : sep ∉ s.data) :
    splitStr sep s = [s] := by
  simp only [splitStr]
  rw [splitOnCharAux_of_not_mem sep s.data [] h]
  simp

example : parse_times "08:00, 20:00" = ["08:00", "20:00"] := by decide
example : strLtb "08:00" "12:00" = true := by decide
example : strLtb "20:00" "12:00" = false := by decide
example : serializeReminderTimes ["08:00", "20:00"] = "08:00,20:00" := by decide

/-! ### Concrete fixtures -/

/-- A medication as the add-medication form inserts it. -/
def demoMed : Medication :=
  { id := 1, name := "Aspirin", dosage := "5mg", frequency := "Daily",
    start_date := "2024-01-01", end_date := none, times_per_day := 2,
    reminder_times := "08:00, 20:00" }

/-- A store holding one medication and no health-log rows. -/
def demoStore0 : Store := { medications := [demoMed], health_log := [] }

/-- `demoStore0` after marking Aspirin taken on 2024-01-05. -/
def demoStore1 : Store := (markMedicationTaken demoStore0 "2024-01-05" "Aspirin" 1).1

/-- The empty store. -/
def emptyStore : Store := { medications := [], health_log := [] }

/-- A store whose health-log row for 2024-01-05 already lists Aspirin taken. -/
def takenStore : Store :=
  { medications := [demoMed],
    health_log := [{ id := 1, date := "2024-01-05", symptom := none, severity := none,
                     notes := none, taken_medications := some "Aspirin" }] }

/-- A store with two health-log rows for the same date: a symptom row first
(no taken medications) and an adherence row second. -/
def dupStore : Store :=
  { medications := [],
    health_log :=
      [{ id := 1, date := "2024-01-05", symptom := some "Cough", severity := some 3,
         notes := none, taken_medications := none },
       { id := 2, date := "2024-01-05", symptom := none, severity := none,
         notes := none, taken_medications := some "OldPill" }] }

/-! ### Claim theorems -/

/-- The claim's condition on the end date: the medication has no end date,
or the query date is at most the end date. -/
def endDateOk (e : Option String) (d : String) : Bool :=
  match e with
  | none => true
  | some e => strLeb d e

/-- Claim C3: a stored medication is returned by the active-on-`d` query
exactly when `start_date <= d` and the end date is absent or `d <=
end_date` (text order, as SQLite compares these ISO date strings). -/
theorem listMedicationsActiveOn_mem_iff (s : Store) (d : String) (m : Medication)
    (h : m ∈ s.medications) :
    m ∈ listMedicationsActiveOn s d ↔
      (strLeb m.start_date d && endDateOk m.end_date d) = true := by
  simp only [listMedicationsActiveOn, List.mem_filter, h, true_and]
  cases he : m.end_date with
  | none => simp [endDateOk, strLeb_refl]
  | some e => simp [endDateOk]

theorem listMedicationsActiveOn_mem_iff_witness :
    demoMed ∈ listMedicationsActiveOn demoStore0 "2024-01-05" :=
  (listMedicationsActiveOn_mem_iff demoStore0 "2024-01-05" demoMed (by decide)).2
    (by decide)

/-- Claim C5, counterexample: the stored input "08:00, 20:00" parses to
["08:00","20:00"], but re-serializing that list with the spec's
comma-join does not reproduce the stored string (the space after the
comma is lost). -/
theorem reminder_roundtrip_counterexample :
    parse_times "08:00, 20:00" = ["08:00", "20:00"] ∧
    serializeReminderTimes (parse_times "08:00, 20:00") ≠ "08:00, 20:00" := by
  constructor
  · decide
  · decide

/-- Claim C5, amended: "08:00, 20:00" parses to ["08:00","20:00"];
comma-joining that list yields "08:00,20:00", which differs from the
stored input by whitespace only and parses back to the same list (the
round-trip is the identity at the list level, not the string level). -/
theorem reminder_roundtrip_amended :
    parse_times "08:00, 20:00" = ["08:00", "20:00"] ∧
    serializeReminderTimes ["08:00", "20:00"] = "08:00,20:00" ∧
    parse_times (serializeReminderTimes ["08:00", "20:00"]) = ["08:00", "20:00"] := by
  refine ⟨by decide, by decide, by decide⟩

/-- Claim C6: submitting the add-medication form with an empty name takes
the validation-error branch and leaves the store (in particular the
medications collection) unchanged; no row is inserted. -/
theorem addMedication_emptyName (s : Store) (f : MedForm) (i : Nat)
    (h : f.name = "") :
    addMedication s f i = (s, SubmitResult.validationError) := by
  simp [addMedication, h]

theorem addMedication_emptyName_witness :
    addMedication demoStore0
      { name := "", dosage := "5mg", frequency := "Daily", times_per_day := 2,
        reminder_input := "08:00, 20:00", start_date := "2024-01-01", end_date := none } 2 =
      (demoStore0, SubmitResult.validationError) :=
  addMedication_emptyName demoStore0
    { name := "", dosage := "5mg", frequency := "Daily", times_per_day := 2,
      reminder_input := "08:00, 20:00", start_date := "2024-01-01", end_date := none } 2 rfl

/-- Claim C9, counterexample: the evaluator does not enforce zero-padded
"HH:MM" input: `parse_times` keeps "9:00" verbatim (neither rejected nor
normalized), and the classification of the unpadded string differs from
that of its zero-padded form "09:00" at current time "10:00", because the
raw lexicographic comparison misorders them. -/
theorem zeroPad_enforcement_counterexample :
    parse_times "9:00" = ["9:00"] ∧
    classifyTimes takenStore "2024-01-05" "10:00" "Aspirin" (parse_times "9:00") ≠
      classifyTimes takenStore "2024-01-05" "10:00" "Aspirin" ["09:00"] := by
  constructor
  · decide
  · decide

/-- Claim C9, amended: the evaluator accepts unpadded time strings and
compares them as-is: "9:00" is not less than "10:00" in string order, so
at current time "10:00" the 9:00 reminder of a taken medication is
classified pending/not-yet-due, while the padded "09:00" is classified
taken. -/
theorem zeroPad_not_enforced :
    strLtb "9:00" "10:00" = false ∧
    classifyTimes takenStore "2024-01-05" "10:00" "Aspirin" ["9:00"] = (["9:00"], []) ∧
    classifyTimes takenStore "2024-01-05" "10:00" "Aspirin" ["09:00"] = ([], ["09:00"]) := by
  refine ⟨by decide, by decide, by decide⟩

/-- If the name is already in the parsed taken list of the first row for
the date, the handler issues no write and returns the store unchanged. -/
theorem mark_of_mem (s : Store) (d n : String) (i : Nat)
    (h : n ∈ parseTaken (findLogRowByDate s d)) :
    markMedicationTaken s d n i = (s, []) := by
  simp [markMedicationTaken, h]

/-- Claim C10: when the first health-log row found for date `d` already
lists `n` in its taken_medications, the handler performs no write at all:
no UPDATE, no INSERT, and the store is returned unchanged. -/
theorem markMedicationTaken_noWrite (s : Store) (d n : String) (i : Nat)
    (h : n ∈ parseTaken (findLogRowByDate s d)) :
    markMedicationTaken s d n i = (s, []) :=
  mark_of_mem s d n i h

theorem markMedicationTaken_noWrite_witness :
    markMedicationTaken takenStore "2024-01-05" "Aspirin" 7 = (takenStore, []) :=
  markMedicationTaken_noWrite takenStore "2024-01-05" "Aspirin" 7 (by decide)

/-- Claim C4: the classification loop sends a reminder time `t` to the
taken list exactly when `t` is strictly below the current time (string
order) and the medication's name is in the day's taken set, and to the
pending list otherwise; concretely, at current time "12:00" with
reminder times "08:00, 20:00" and no taken record both times are pending,
and after marking Aspirin taken 08:00 moves to taken while 20:00 stays
pending. -/
theorem classifyTimes_spec :
    (∀ (s : Store) (d now name : String) (ts : List String),
      classifyTimes s d now name ts =
        (ts.filter fun t => !(strLtb t now && decide (name ∈ medTaken s d)),
         ts.filter fun t => strLtb t now && decide (name ∈ medTaken s d))) ∧
    classifyTimes demoStore0 "2024-01-05" "12:00" "Aspirin"
        (parse_times demoMed.reminder_times) = (["08:00", "20:00"], []) ∧
    classifyTimes demoStore1 "2024-01-05" "12:00" "Aspirin"
        (parse_times demoMed.reminder_times) = (["20:00"], ["08:00"]) := by
  refine ⟨?_, by decide, by decide⟩
  intro s d now name ts
  induction ts with
  | nil => rfl
  | cons t ts ih =>
    simp only [classifyTimes, ih, List.filter_cons]
    by_cases hm : name ∈ medTaken s d
    · cases hlt : strLtb t now <;> simp [hm, hlt]
    · cases hlt : strLtb t now <;> simp [hm, hlt]

/-- Claim C7: the recent-entries query with limit 10 returns at most 10
rows, and consecutive returned rows have non-increasing dates (date
descending, in SQLite's text order). -/
theorem listRecentHealthLogEntries_spec (s : Store) :
    (listRecentHealthLogEntries s 10).length ≤ 10 ∧
    (listRecentHealthLogEntries s 10).Pairwise fun x y => strLeb y.1 x.1 = true := by
  constructor
  · exact List.length_take_le _ _
  · have hs : (s.health_log.mergeSort fun a b => strLeb b.date a.date).Pairwise
        (fun a b => strLeb b.date a.date = true) :=
      List.sorted_mergeSort
        (fun a b c h1 h2 => strLeb_trans c.date b.date a.date h2 h1)
        (fun a b => strLeb_total b.date a.date)
        s.health_log
    have hmap : (((s.health_log.mergeSort fun a b => strLeb b.date a.date).map fun r =>
        (r.date, r.symptom, r.severity, r.notes)).Pairwise
        fun x y => strLeb y.1 x.1 = true) := by
      rw [List.pairwise_map]
      exact hs
    exact List.Pairwise.sublist (List.take_sublist _ _) hmap

/-- A second medication whose active window ended before 2024; it must
still appear in the PDF medication table. -/
def oldMed : Medication :=
  { id := 2, name := "OldPill", dosage := "10mg", frequency := "Daily",
    start_date := "2023-01-01", end_date := some "2023-06-30", times_per_day := 1,
    reminder_times := "08:00" }

/-- A store for the PDF report: two medications (one long inactive) and
two health-log rows, only the first of which falls in January 2024. -/
def reportStore : Store :=
  { medications := [demoMed, oldMed],
    health_log :=
      [{ id := 1, date := "2024-01-05", symptom := some "Headache", severity := some 6,
         notes := none, taken_medications := none },
       { id := 2, date := "2024-02-01", symptom := some "Cough", severity := some 3,
         notes := some "saw doctor", taken_medications := none }] }

/-- Claim C8: the report's medication table contains a row for every
stored medication with no date filtering; its health-log table consists
of exactly the rows whose date lies in the inclusive range, rendered with
absent notes as "-"; concretely, for January 2024 on `reportStore` the
log table has exactly the single data row ["2024-01-05","Headache",6,"-"]
while both medications (including the long-inactive one) are listed. -/
theorem buildReport_spec :
    (∀ (s : Store) (a b : String) (m : Medication), m ∈ s.medications →
      [m.name, m.dosage] ∈ (buildReport s a b).1) ∧
    (∀ (s : Store) (a b : String),
      (buildReport s a b).2 =
        [Cell.s "Date", Cell.s "Symptom", Cell.s "Severity", Cell.s "Notes"] ::
          (s.health_log.filter fun r => strLeb a r.date && strLeb r.date b).map
            renderLogRow) ∧
    buildReport reportStore "2024-01-01" "2024-01-31" =
      ([["Name", "Dosage"], ["Aspirin", "5mg"], ["OldPill", "10mg"]],
       [[Cell.s "Date", Cell.s "Symptom", Cell.s "Severity", Cell.s "Notes"],
        [Cell.s "2024-01-05", Cell.s "Headache", Cell.i 6, Cell.s "-"]]) := by
  refine ⟨?_, fun s a b => rfl, by decide⟩
  intro s a b m hm
  simp only [buildReport, List.map_map, List.mem_cons]
  right
  exact List.mem_map.2 ⟨m, hm, rfl⟩

theorem buildReport_spec_witness :
    ["Aspirin", "5mg"] ∈ (buildReport reportStore "2024-01-01" "2024-01-31").1 :=
  buildReport_spec.1 reportStore "2024-01-01" "2024-01-31" demoMed (by decide)

/-! ### Lemmas about the mark-as-taken handler -/

theorem joinChar_eq_nil {sep : Char} :
    ∀ {l : List (List Char)}, joinChar sep l = [] → ∀ p ∈ l, p = []
  | [], _, p, hp => absurd hp (List.not_mem_nil p)
  | [x], h, p, hp => by
    rw [List.mem_singleton] at hp
    subst hp; exact h
  | x :: y :: ys, h, p, _ => by
    exfalso
    simp [joinChar] at h

theorem joinStr_ne_empty {l : List String} {x : String} (hx : x ∈ l)
    (hne : x ≠ "") : joinStr ';' l ≠ "" := by
  intro h
  have hdata : joinChar ';' (l.map String.data) = [] := congrArg String.data h
  have : x.data = [] :=
    joinChar_eq_nil hdata x.data (List.mem_map_of_mem String.data hx)
  exact hne (String.ext_data this)

theorem parseTaken_sepFree : ∀ (o : Option HealthLogRow), ∀ x ∈ parseTaken o, ';' ∉ x.data
  | none, x, hx => absurd hx (List.not_mem_nil x)
  | some r, x, hx => by
    simp only [parseTaken] at hx
    cases htm : r.taken_medications with
    | none => simp only [htm] at hx; exact absurd hx (List.not_mem_nil x)
    | some s =>
      simp only [htm] at hx
      by_cases hs : s = ""
      · rw [if_pos hs] at hx; exact absurd hx (List.not_mem_nil x)
      · rw [if_neg hs] at hx; exact mem_splitStr ';' s x hx

/-- The UPDATE branch of the handler, as an equation. -/
theorem mark_eq_update (s : Store) (d n : String) (i : Nat) (r : HealthLogRow)
    (hrow : findLogRowByDate s d = some r) (hmem : n ∉ parseTaken (some r)) :
    markMedicationTaken s d n i =
      ({ s with health_log := s.health_log.map fun row =>
          if row.date == d then
            { row with taken_medications := some (joinStr ';' (parseTaken (some r) ++ [n])) }
          else row },
       [DbWrite.update (joinStr ';' (parseTaken (some r) ++ [n])) d]) := by
  simp [markMedicationTaken, hrow, hmem]

/-- The INSERT branch of the handler, as an equation. -/
theorem mark_eq_insert (s : Store) (d n : String) (i : Nat)
    (hrow : findLogRowByDate s d = none) :
    markMedicationTaken s d n i =
      ({ s with health_log := s.health_log ++
          [{ id := i, date := d, symptom := none, severity := none,
             notes := none, taken_medications := some n }] },
       [DbWrite.insert d n]) := by
  simp [markMedicationTaken, hrow, parseTaken]

/-- The date-keyed lookup commutes with the UPDATE's per-row rewrite,
because the rewrite never changes a row's date. -/
theorem findLogRowByDate_map_update (s : Store) (d : String) (v : Option String) :
    findLogRowByDate
      { s with health_log := s.health_log.map fun row =>
          if row.date == d then { row with taken_medications := v } else row } d =
      (findLogRowByDate s d).map fun row =>
        if row.date == d then { row with taken_medications := v } else row := by
  simp only [findLogRowByDate]
  rw [List.find?_map]
  have hp : ((fun r : HealthLogRow => r.date == d) ∘ fun row =>
      if row.date == d then { row with taken_medications := v } else row) =
      fun r : HealthLogRow => r.date == d := by
    funext row
    by_cases h : (row.date == d) = true
    · simp [Function.comp, h]
    · simp [Function.comp, h]
  rw [hp]

/-- After a successful mark, the first row for the date parses to a taken
list containing the name (for nonempty, separator-free names). -/
theorem mem_parseTaken_after_mark (s : Store) (d n : String) (i : Nat)
    (hne : n ≠ "") (hsemi : ';' ∉ n.data) :
    n ∈ parseTaken (findLogRowByDate (markMedicationTaken s d n i).1 d) := by
  by_cases hmem : n ∈ parseTaken (findLogRowByDate s d)
  · rw [mark_of_mem s d n i hmem]
    exact hmem
  · cases hrow : findLogRowByDate s d with
    | some r =>
      rw [hrow] at hmem
      rw [mark_eq_update s d n i r hrow hmem]
      set ts := joinStr ';' (parseTaken (some r) ++ [n]) with hts_def
      have hts : ts ≠ "" := by
        rw [hts_def]
        exact joinStr_ne_empty (List.mem_append_right _ (List.mem_singleton_self n)) hne
      have hsplit : splitStr ';' ts = parseTaken (some r) ++ [n] := by
        rw [hts_def]
        refine splitStr_joinStr ';' _ (by simp) ?_
        intro x hx
        rcases List.mem_append.1 hx with hx | hx
        · exact parseTaken_sepFree (some r) x hx
        · rw [List.mem_singleton] at hx; subst hx; exact hsemi
      have hrow' : s.health_log.find? (fun row => row.date == d) = some r := hrow
      have hrd : (r.date == d) = true :=
        @List.find?_some HealthLogRow (fun row => row.date == d) r s.health_log hrow'
      rw [findLogRowByDate_map_update, hrow, Option.map_some', if_pos hrd]
      show n ∈ parseTaken (some { r with taken_medications := some ts })
      simp only [parseTaken]
      rw [if_neg hts, hsplit]
      exact List.mem_append_right _ (List.mem_singleton_self n)
    | none =>
      rw [mark_eq_insert s d n i hrow]
      simp only [findLogRowByDate] at hrow ⊢
      rw [List.find?_append, hrow, Option.none_or]
      have hfind : List.find? (fun row => row.date == d)
          [{ id := i, date := d, symptom := none, severity := none,
             notes := none, taken_medications := some n : HealthLogRow }] =
          some { id := i, date := d, symptom := none, severity := none,
                 notes := none, taken_medications := some n } := by
        simp [List.find?]
      rw [hfind]
      simp only [parseTaken, if_neg hne, splitStr_eq_single ';' n hsemi]
      exact List.mem_singleton_self n

/-- Claim C1, counterexample: for a medication name containing the
storage separator ';' (here "A;B", which the add-medication form
accepts), marking twice does not yield the same taken set as marking
once — the set gains duplicates, because the stored string "A;B" parses
back as the two names "A" and "B". -/
theorem mark_idempotent_counterexample :
    parseTaken (findLogRowByDate
        (markMedicationTaken emptyStore "2024-01-05" "A;B" 1).1 "2024-01-05") =
      ["A", "B"] ∧
    parseTaken (findLogRowByDate
        (markMedicationTaken
          (markMedicationTaken emptyStore "2024-01-05" "A;B" 1).1
          "2024-01-05" "A;B" 2).1 "2024-01-05") =
      ["A", "B", "A", "B"] := by
  refine ⟨by decide, by decide⟩

/-- Claim C1, amended: for every date and every nonempty medication name
that does not contain the separator ';', marking a second time from the
state after the first mark is a complete no-op — it issues no write and
returns the store unchanged — so the taken set for the date is the same
after two marks as after one, and an already-present name is never
duplicated. -/
theorem markMedicationTaken_idem (s : Store) (d n : String) (i1 i2 : Nat)
    (hne : n ≠ "") (hsemi : ';' ∉ n.data) :
    markMedicationTaken (markMedicationTaken s d n i1).1 d n i2 =
      ((markMedicationTaken s d n i1).1, []) :=
  mark_of_mem _ d n i2 (mem_parseTaken_after_mark s d n i1 hne hsemi)

theorem markMedicationTaken_idem_witness :
    markMedicationTaken
        (markMedicationTaken demoStore0 "2024-01-05" "Aspirin" 1).1
        "2024-01-05" "Aspirin" 2 =
      ((markMedicationTaken demoStore0 "2024-01-05" "Aspirin" 1).1, []) :=
  markMedicationTaken_idem demoStore0 "2024-01-05" "Aspirin" 1 2
    (by decide) (by decide)

/-- Frame relation for the mark-as-taken UPDATE: every column except
`taken_medications` is unchanged, and a row whose date differs from the
marked date is unchanged entirely. -/
def frameOk (d : String) (old new : HealthLogRow) : Prop :=
  new.id = old.id ∧ new.date = old.date ∧ new.symptom = old.symptom ∧
  new.severity = old.severity ∧ new.notes = old.notes ∧
  (old.date ≠ d → new = old)

/-- Claim C2, counterexample: with two health-log rows for the same date,
marking a medication taken rewrites the `taken_medications` field of the
second (non-first-matching) row as well — the UPDATE's `WHERE date = ?`
touches every row of that date, clobbering the second row's value. -/
theorem mark_frame_counterexample :
    ((markMedicationTaken dupStore "2024-01-05" "Aspirin" 3).1.health_log[1]?).map
        (fun r => r.taken_medications) = some (some "Aspirin") ∧
    (dupStore.health_log[1]?).map (fun r => r.taken_medications) =
      some (some "OldPill") := by
  refine ⟨by decide, by decide⟩

/-- Claim C2, amended: when a health-log row for the date exists, the
handler leaves the medications table untouched and changes at most the
`taken_medications` field of health-log rows — every other field of every
row is preserved, and rows whose date differs from the marked date are
completely unchanged.  (Rows sharing the marked date are all rewritten,
not just the first match.) -/
theorem mark_frame (s : Store) (d n : String) (i : Nat) (r : HealthLogRow)
    (hrow : findLogRowByDate s d = some r) :
    (markMedicationTaken s d n i).1.medications = s.medications ∧
    List.Forall₂ (frameOk d) s.health_log
      (markMedicationTaken s d n i).1.health_log := by
  by_cases hmem : n ∈ parseTaken (some r)
  · have h0 : n ∈ parseTaken (findLogRowByDate s d) := by rw [hrow]; exact hmem
    rw [mark_of_mem s d n i h0]
    exact ⟨rfl, List.forall₂_same.2 fun x _ =>
      ⟨rfl, rfl, rfl, rfl, rfl, fun _ => rfl⟩⟩
  · have hmed : (markMedicationTaken s d n i).1.medications = s.medications := by
      rw [mark_eq_update s d n i r hrow hmem]
    have hhl : (markMedicationTaken s d n i).1.health_log =
        s.health_log.map fun row =>
          if row.date == d then
            { row with taken_medications := some (joinStr ';' (parseTaken (some r) ++ [n])) }
          else row := by
      rw [mark_eq_update s d n i r hrow hmem]
    refine ⟨hmed, ?_⟩
    rw [hhl, List.forall₂_map_right_iff]
    refine List.forall₂_same.2 fun x _ => ?_
    by_cases hx : (x.date == d) = true
    · rw [if_pos hx]
      exact ⟨rfl, rfl, rfl, rfl, rfl,
        fun hxd => absurd (by simpa using hx) hxd⟩
    · rw [if_neg hx]
      exact ⟨rfl, rfl, rfl, rfl, rfl, fun _ => rfl⟩

theorem mark_frame_witness :
    (markMedicationTaken takenStore "2024-01-05" "Tylenol" 9).1.medications =
      takenStore.medications ∧
    List.Forall₂ (frameOk "2024-01-05") takenStore.health_log
      (markMedicationTaken takenStore "2024-01-05" "Tylenol" 9).1.health_log :=
  mark_frame takenStore "2024-01-05" "Tylenol" 9
    { id := 1, date := "2024-01-05", symptom := none, severity := none,
      notes := none, taken_medications := some "Aspirin" } (by decide)
